import Mathlib

/-!
Shallow embedding of the TinyChat client (`client/client.py`).

The client's behaviour is driven entirely by the sequence of server
responses it observes, so each network-facing function is embedded as a
pure function of the response(s) it receives:

* `conectar` maps one connect response to a token or an error;
* `enviar_mensagem` maps one send response to success or an error;
* the poll loop `verificar_mensagens` is run against a "script": the
  list of successive fetch outcomes it would observe, one per iteration;
* the input/send loop `loop_entrada_e_envio` is run against the list of
  successive console-input events, with a response function for sends.

Printed lines are collected into a list, tagged as message prints
(`OutLine.msg`, the `print(f"[{m_from}] {m_text}")` in the poll loop) or
diagnostics (`OutLine.diag`, every other `print`).
-/

namespace TinyChat

/-- A fetched message: a JSON object whose `from` / `text` fields may be
absent (Python `m.get(...)` then yields `None`), or a non-object value on
which `m.get` raises (the `except Exception: continue` branch). -/
inductive Msg where
  | obj (sender text : Option String)
  | nonObj
deriving DecidableEq

/-- The outcome of one `buscar_mensagens` call: HTTP 200 with a message
list, HTTP 404 (`FileNotFoundError` in the code), or any other failure
(`RuntimeError` carrying status and body). -/
inductive FetchResult where
  | ok (msgs : List Msg)
  | notFound
  | serverError (status : Nat) (body : String)
deriving DecidableEq

/-- A printed line, tagged as a message emission or a diagnostic. -/
inductive OutLine where
  | msg (s : String)
  | diag (s : String)
deriving DecidableEq

/-- Python string interpolation of an optional value: `None` prints as
`"None"`. -/
def optStr : Option String → String
  | none => "None"
  | some s => s

/-- The poll loop's message print format: `[{m_from}] {m_text}`. -/
def fmtMsg (sender text : Option String) : String :=
  "[" ++ optStr sender ++ "] " ++ optStr text

/-- The line emitted for one fetched message: objects always produce
exactly one line; a non-object raises in `m.get` and is skipped. -/
def emitStr : Msg → Option String
  | Msg.obj f t => some (fmtMsg f t)
  | Msg.nonObj => none

/-- `emitStr`, tagged as a message print. -/
def emitLine (m : Msg) : Option OutLine :=
  (emitStr m).map OutLine.msg

/-- Total version of `emitStr` on objects, used to state that well-formed
messages are printed one line each. -/
def msgLineOf : Msg → String
  | Msg.obj f t => fmtMsg f t
  | Msg.nonObj => ""

/-- State of `verificar_mensagens`: the cursor `last_index` and the shared
`stop_event`. -/
structure PollState where
  lastIndex : Nat
  stopSet : Bool
deriving DecidableEq

/-- Diagnostic printed when a fetch raises `FileNotFoundError`. -/
def stopLine : String := "Sessão removida no servidor. Encerrando verificação."

/-- Diagnostic printed on any other fetch failure. -/
def fetchErrLine (status : Nat) (body : String) : String :=
  "Erro ao buscar mensagens: " ++ toString status ++ " " ++ body

/-- One iteration of the `while not stop_event.is_set()` body of
`verificar_mensagens`, given the fetch outcome of that iteration.
Returns the printed lines, the new state, and whether the function
returned (`return` happens only in the `FileNotFoundError` branch, which
also sets the stop event). On success the code prints the slice
`msgs[last_index:]` and updates `last_index` only under
`if msgs and len(msgs) > last_index`. -/
def pollIter (st : PollState) : FetchResult → List OutLine × PollState × Bool
  | FetchResult.ok msgs =>
      if msgs ≠ [] ∧ msgs.length > st.lastIndex then
        ((msgs.drop st.lastIndex).filterMap emitLine,
          ⟨msgs.length, st.stopSet⟩, false)
      else ([], st, false)
  | FetchResult.notFound =>
      ([OutLine.diag stopLine], ⟨st.lastIndex, true⟩, true)
  | FetchResult.serverError s b =>
      ([OutLine.diag (fetchErrLine s b)], st, false)

/-- The poll loop of `verificar_mensagens`, run against the script of
successive fetch outcomes. Returns the printed lines, the final state,
and the unconsumed remainder of the script (the fetches the loop never
performed, because it returned or the stop event was set). -/
def pollLoop : PollState → List FetchResult → List OutLine × PollState × List FetchResult
  | st, [] => ([], st, [])
  | st, r :: rest =>
      if st.stopSet then ([], st, r :: rest)
      else
        let step := pollIter st r
        if step.2.2 then (step.1, step.2.1, rest)
        else
          let cont := pollLoop step.2.1 rest
          (step.1 ++ cont.1, cont.2.1, cont.2.2)

/-- The initialization of `verificar_mensagens`: `last_index` is the
length of the initially fetched list; on `FileNotFoundError` the function
sets the stop event and returns (`none`); on any other failure it falls
back to `last_index = 0`. -/
def initCursor : FetchResult → Option Nat
  | FetchResult.ok msgs => some msgs.length
  | FetchResult.notFound => none
  | FetchResult.serverError _ _ => some 0

/-- `verificar_mensagens`, run against the outcome of the initial fetch
and the script of subsequent fetch outcomes. -/
def verificar_mensagens (init : FetchResult) (script : List FetchResult) :
    List OutLine × PollState × List FetchResult :=
  match initCursor init with
  | some n => pollLoop ⟨n, false⟩ script
  | none => ([OutLine.diag stopLine], ⟨0, true⟩, script)

/-- Projection of an output line to its message content, if it is a
message print. -/
def lineMsg : OutLine → Option String
  | OutLine.msg s => some s
  | OutLine.diag _ => none

/-- The message prints of an output stream, diagnostics dropped. -/
def printedMsgs (out : List OutLine) : List String := out.filterMap lineMsg

/-- `l` extends `cur` by appending (append-only growth). -/
def ExtendsTo (cur l : List Msg) : Prop := ∃ t, l = cur ++ t

/-- A fetch script is growing from `cur`: every successful fetch extends
the previously fetched list, and no fetch raises `FileNotFoundError`. -/
def growingFrom (cur : List Msg) : List FetchResult → Prop
  | [] => True
  | FetchResult.ok l :: rest => ExtendsTo cur l ∧ growingFrom l rest
  | FetchResult.notFound :: _ => False
  | FetchResult.serverError _ _ :: rest => growingFrom cur rest

/-- The last successfully fetched list of a script (`cur` if none). -/
def finalList (cur : List Msg) : List FetchResult → List Msg
  | [] => cur
  | FetchResult.ok l :: rest => finalList l rest
  | FetchResult.notFound :: rest => finalList cur rest
  | FetchResult.serverError _ _ :: rest => finalList cur rest

/-- A connect response: HTTP status, body text, and the `token` field of
the JSON body (`data.get("token")`, absent ⇒ `none`). -/
structure ConnResp where
  status : Nat
  body : String
  token : Option String
deriving DecidableEq

/-- Errors raised by `conectar`: `FileNotFoundError` on 404, otherwise
`RuntimeError` carrying status and body. -/
inductive ConnError where
  | notFound
  | serverError (status : Nat) (body : String)
deriving DecidableEq

/-- `conectar`: raises on 404 and on any other non-200 status, otherwise
returns `data.get("token")`. -/
def conectar (r : ConnResp) : Except ConnError (Option String) :=
  if r.status = 404 then Except.error ConnError.notFound
  else if r.status ≠ 200 then Except.error (ConnError.serverError r.status r.body)
  else Except.ok r.token

/-- Python falsiness of the token (`if not token`): `None` or `""`. -/
def tokenFalsy : Option String → Bool
  | none => true
  | some s => s = ""

/-- Outcome of one handshake attempt in `principal`. -/
inductive HandshakeOutcome where
  | connected (token : String)
  | reprompt
deriving DecidableEq

/-- One attempt of the `while True` handshake loop in `principal`, as a
function of the connect response: every `conectar` exception is caught
and printed and the loop continues (reprompt); a falsy token prints
"Resposta inválida" and the loop continues; otherwise the loop breaks
with the token. (The advisory username-collision warning before the
connect call only adds further reprompt paths and is not modelled.) -/
def handshakeStep (r : ConnResp) : HandshakeOutcome :=
  match conectar r with
  | Except.error _ => HandshakeOutcome.reprompt
  | Except.ok none => HandshakeOutcome.reprompt
  | Except.ok (some s) =>
      if s = "" then HandshakeOutcome.reprompt else HandshakeOutcome.connected s

/-- The handshake loop of `principal`, run against the successive connect
responses of the attempts: returns the first accepted token. -/
def handshakeLoop : List ConnResp → Option String
  | [] => none
  | r :: rest =>
      match handshakeStep r with
      | HandshakeOutcome.connected t => some t
      | HandshakeOutcome.reprompt => handshakeLoop rest

/-- A send response: HTTP status and body text. -/
structure SendResp where
  status : Nat
  body : String
deriving DecidableEq

/-- `enviar_mensagem`: returns on 200 or 204, otherwise raises
`RuntimeError` carrying status and body. -/
def enviar_mensagem (r : SendResp) : Except (Nat × String) Unit :=
  if r.status = 200 ∨ r.status = 204 then Except.ok ()
  else Except.error (r.status, r.body)

/-- Python `str.strip()` whitespace. -/
def isSpaceChar (c : Char) : Bool :=
  c = ' ' || c = '\t' || c = '\n' || c = '\r' || c = '\x0b' || c = '\x0c'

/-- Python `str.strip()` on the character list. -/
def stripList (l : List Char) : List Char :=
  ((l.dropWhile isSpaceChar).reverse.dropWhile isSpaceChar).reverse

/-- Python `str.strip()`. -/
def strip (s : String) : String := String.mk (stripList s.data)

/-- One console-input event of `loop_entrada_e_envio`: a line of operator
input, or `EOFError` / `KeyboardInterrupt`. -/
inductive InputEvent where
  | line (s : String)
  | termination
deriving DecidableEq

/-- Diagnostic printed when a send fails: the `RuntimeError` message of
`enviar_mensagem` interpolated into the loop's own print. -/
def sendErrLine (status : Nat) (body : String) : String :=
  "Erro ao enviar mensagem: Falha ao enviar mensagem: "
    ++ toString status ++ " " ++ body

/-- `loop_entrada_e_envio`, run against the list of successive input
events, with `respond` giving the server's response to each attempted
send. Returns the texts sent (in order) and the printed lines. Blank
lines (after strip) are skipped; a send failure is printed and the loop
continues; a termination event prints "Saindo..." and returns. -/
def loop_entrada_e_envio (respond : String → SendResp) :
    List InputEvent → List String × List OutLine
  | [] => ([], [])
  | InputEvent.termination :: _ => ([], [OutLine.diag "\nSaindo..."])
  | InputEvent.line s :: rest =>
      let t := strip s
      if t = "" then loop_entrada_e_envio respond rest
      else
        let cont := loop_entrada_e_envio respond rest
        match enviar_mensagem (respond t) with
        | Except.ok _ => (t :: cont.1, cont.2)
        | Except.error (st, b) =>
            (t :: cont.1, OutLine.diag (sendErrLine st b) :: cont.2)

/-! ## Helper lemmas -/

/-- Extracting message prints commutes with emitting a message list. -/
theorem printedMsgs_filterMap_emitLine (l : List Msg) :
    printedMsgs (l.filterMap emitLine) = l.filterMap emitStr := by
  unfold printedMsgs
  rw [List.filterMap_filterMap]
  refine List.filterMap_congr (fun m _ => ?_)
  cases m <;> simp [emitLine, emitStr, lineMsg]

/-- Message prints of a concatenated output stream. -/
theorem printedMsgs_append (a b : List OutLine) :
    printedMsgs (a ++ b) = printedMsgs a ++ printedMsgs b := by
  simp [printedMsgs]

/-- A growing script's final list extends the starting list. -/
theorem growingFrom_finalList (script : List FetchResult) :
    ∀ cur : List Msg, growingFrom cur script → ExtendsTo cur (finalList cur script) := by
  induction script with
  | nil => intro cur _; exact ⟨[], by simp [finalList]⟩
  | cons r rest ih =>
    intro cur h
    cases r with
    | ok l =>
      obtain ⟨⟨t, rfl⟩, h2⟩ := h
      obtain ⟨u, hu⟩ := ih (cur ++ t) h2
      exact ⟨t ++ u, by simp [finalList, hu, List.append_assoc]⟩
    | notFound => exact absurd h id
    | serverError s b => exact ih cur h

/-- Running the poll loop over a growing script from a cursor equal to the
current list's length: the message prints are exactly the formatted
messages of the final list beyond the starting length, in order, and the
final cursor is the final list's length with the stop event unset. -/
theorem pollLoop_growing (script : List FetchResult) :
    ∀ cur : List Msg, growingFrom cur script →
      printedMsgs (pollLoop ⟨cur.length, false⟩ script).1
          = ((finalList cur script).drop cur.length).filterMap emitStr
        ∧ (pollLoop ⟨cur.length, false⟩ script).2.1
          = ⟨(finalList cur script).length, false⟩ := by
  induction script with
  | nil =>
    intro cur _
    simp [pollLoop, finalList, printedMsgs]
  | cons r rest ih =>
    intro cur h
    cases r with
    | ok l =>
      obtain ⟨⟨t, rfl⟩, h2⟩ := h
      rcases eq_or_ne t [] with rfl | ht
      · have hcond : ¬((cur ++ [] : List Msg) ≠ [] ∧ (cur ++ []).length > cur.length) := by
          simp
        have := ih (cur ++ []) h2
        simp only [List.append_nil] at this ⊢
        simpa [pollLoop, pollIter, hcond, finalList] using this
      · have hlen : cur.length < (cur ++ t).length := by
          simp [List.length_append]
          exact List.length_pos.mpr ht
        have hne : (cur ++ t : List Msg) ≠ [] := by
          simp [List.append_eq_nil]
          intro _ h
          exact ht h
        have hcond : (cur ++ t : List Msg) ≠ [] ∧ (cur ++ t).length > cur.length :=
          ⟨hne, hlen⟩
        obtain ⟨ihout, ihst⟩ := ih (cur ++ t) h2
        obtain ⟨u, hu⟩ := growingFrom_finalList rest (cur ++ t) h2
        constructor
        · simp only [pollLoop, pollIter, if_pos hcond, if_neg (Bool.false_ne_true),
            Bool.false_eq_true, if_false, printedMsgs_append]
          rw [printedMsgs_filterMap_emitLine, ihout, finalList, hu]
          rw [List.drop_left, List.append_assoc, List.drop_left,
            ← List.filterMap_append]
          congr 1
          rw [← List.append_assoc, List.drop_left]
        · simp only [pollLoop, pollIter, if_pos hcond, if_neg (Bool.false_ne_true),
            Bool.false_eq_true, if_false]
          rw [ihst]
          simp [finalList]
    | notFound => exact absurd h id
    | serverError s b =>
      have h2 : growingFrom cur rest := h
      obtain ⟨ihout, ihst⟩ := ih cur h2
      constructor
      · simp only [pollLoop, pollIter, Bool.false_eq_true, if_false, printedMsgs_append]
        rw [ihout]
        simp [printedMsgs, lineMsg, finalList]
      · simp only [pollLoop, pollIter, Bool.false_eq_true, if_false]
        rw [ihst]
        simp [finalList]

/-- Under the all-objects hypothesis, emission is one line per message. -/
theorem filterMap_emitStr_of_objs (l : List Msg) (h : ∀ m ∈ l, m ≠ Msg.nonObj) :
    l.filterMap emitStr = l.map msgLineOf := by
  induction l with
  | nil => simp
  | cons m rest ih =>
    have hm := h m (List.mem_cons_self m rest)
    have hrest : ∀ m ∈ rest, m ≠ Msg.nonObj := fun x hx => h x (List.mem_cons_of_mem m hx)
    cases m with
    | obj f t => simp [emitStr, msgLineOf, ih hrest]
    | nonObj => exact absurd rfl hm

/-! ## Claims -/

/-- C1: for a run of `verificar_mensagens` whose initial fetch returns
`l0` and whose subsequent fetch script is growing (every successful fetch
extends the previously fetched list, no fetch raises `NotFound`), with
all messages beyond the initial snapshot well-formed objects, the message
prints are exactly the formatted messages of the final list at indices at
or beyond `l0.length`, in list order, each exactly once — no duplicates,
no gaps. -/
theorem C1_growing_run_exact_suffix (l0 : List Msg) (script : List FetchResult)
    (h : growingFrom l0 script)
    (hobj : ∀ m ∈ (finalList l0 script).drop l0.length, m ≠ Msg.nonObj) :
    printedMsgs (verificar_mensagens (FetchResult.ok l0) script).1
      = ((finalList l0 script).drop l0.length).map msgLineOf := by
  have := (pollLoop_growing script l0 h).1
  rw [verificar_mensagens, initCursor, this, filterMap_emitStr_of_objs _ hobj]

/-- C1 witness: a concrete growing run with a transient server error in
the middle prints exactly the two appended messages, once each, in
order. -/
theorem C1_growing_run_exact_suffix_witness :
    printedMsgs (verificar_mensagens
        (FetchResult.ok [Msg.obj (some "a") (some "hi")])
        [FetchResult.ok [Msg.obj (some "a") (some "hi"), Msg.obj (some "b") (some "yo")],
         FetchResult.serverError 500 "boom",
         FetchResult.ok [Msg.obj (some "a") (some "hi"), Msg.obj (some "b") (some "yo"),
           Msg.obj (some "c") (some "zz")]]).1
      = ((finalList [Msg.obj (some "a") (some "hi")]
          [FetchResult.ok [Msg.obj (some "a") (some "hi"), Msg.obj (some "b") (some "yo")],
           FetchResult.serverError 500 "boom",
           FetchResult.ok [Msg.obj (some "a") (some "hi"), Msg.obj (some "b") (some "yo"),
             Msg.obj (some "c") (some "zz")]]).drop 1).map msgLineOf :=
  C1_growing_run_exact_suffix _ _
    (by refine ⟨⟨[Msg.obj (some "b") (some "yo")], rfl⟩, ?_, trivial⟩
        exact ⟨[Msg.obj (some "c") (some "zz")], rfl⟩)
    (by decide)

/-- C2: for a session whose initial fetch returns the list `l0` of `K`
pre-existing messages, the cursor is initialized to `K`, and over any
growing fetch script the message prints are exactly the emissions of the
final list's entries at indices `≥ K`: none of the `K` pre-existing
positions is ever printed. -/
theorem C2_history_suppression (l0 : List Msg) (script : List FetchResult)
    (h : growingFrom l0 script) :
    initCursor (FetchResult.ok l0) = some l0.length
    ∧ printedMsgs (verificar_mensagens (FetchResult.ok l0) script).1
        = ((finalList l0 script).drop l0.length).filterMap emitStr := by
  refine ⟨rfl, ?_⟩
  have := (pollLoop_growing script l0 h).1
  rw [verificar_mensagens, initCursor, this]

/-- C2 witness: with two pre-existing messages and one unchanged re-poll,
the cursor starts at 2 and nothing is printed. -/
theorem C2_history_suppression_witness :
    initCursor (FetchResult.ok [Msg.obj (some "a") (some "x"), Msg.obj (some "b") (some "y")])
        = some 2
    ∧ printedMsgs (verificar_mensagens
        (FetchResult.ok [Msg.obj (some "a") (some "x"), Msg.obj (some "b") (some "y")])
        [FetchResult.ok [Msg.obj (some "a") (some "x"), Msg.obj (some "b") (some "y")]]).1
      = ((finalList [Msg.obj (some "a") (some "x"), Msg.obj (some "b") (some "y")]
          [FetchResult.ok [Msg.obj (some "a") (some "x"), Msg.obj (some "b") (some "y")]]).drop
            2).filterMap emitStr :=
  C2_history_suppression _ _ (by exact ⟨⟨[], by simp⟩, trivial⟩)

/-- C3: a poll whose fetched list has length equal to the current cursor
prints nothing, leaves the state unchanged and does not terminate the
loop; consequently polling the same list twice yields the same output and
state as polling it once. -/
theorem C3_unchanged_list_idempotent :
    (∀ (st : PollState) (msgs : List Msg), msgs.length = st.lastIndex →
        pollIter st (FetchResult.ok msgs) = ([], st, false))
    ∧ (∀ (st : PollState) (l : List Msg),
        (pollLoop st [FetchResult.ok l, FetchResult.ok l]).1
            = (pollLoop st [FetchResult.ok l]).1
        ∧ (pollLoop st [FetchResult.ok l, FetchResult.ok l]).2.1
            = (pollLoop st [FetchResult.ok l]).2.1) := by
  constructor
  · intro st msgs h
    simp [pollIter, h]
  · intro st l
    obtain ⟨n, stop⟩ := st
    cases stop with
    | true => simp [pollLoop]
    | false =>
      by_cases hc : (l ≠ [] ∧ l.length > n)
      · simp [pollLoop, pollIter, hc]
      · simp [pollLoop, pollIter, hc]

/-- C3 witness: a second poll of an unchanged 2-element list from cursor 2
prints nothing and keeps the state. -/
theorem C3_unchanged_list_idempotent_witness :
    pollIter ⟨2, false⟩ (FetchResult.ok [Msg.obj (some "a") (some "x"),
        Msg.obj (some "b") (some "y")])
      = ([], ⟨2, false⟩, false) :=
  C3_unchanged_list_idempotent.1 ⟨2, false⟩
    [Msg.obj (some "a") (some "x"), Msg.obj (some "b") (some "y")] (by decide)

/-- C4 counterexample: a successful poll iteration whose fetched list is
shorter than the current cursor (cursor 3, fetched list of length 1) does
not set the cursor to the fetched length — the update is guarded by
`len(msgs) > last_index`, so the cursor stays 3. -/
theorem C4_cursor_set_unconditionally_cex :
    ¬ (((pollIter ⟨3, false⟩ (FetchResult.ok [Msg.obj none none])).2.1).lastIndex
        = [Msg.obj none none].length) := by decide

/-- C4 amended: after every successful poll iteration the cursor equals
`max` of the previous cursor and the fetched list's length — it is set to
the fetched length exactly when that length exceeds the previous cursor,
and is unchanged otherwise. -/
theorem C4_cursor_becomes_max (st : PollState) (msgs : List Msg) :
    ((pollIter st (FetchResult.ok msgs)).2.1).lastIndex
      = max st.lastIndex msgs.length := by
  by_cases hc : (msgs ≠ [] ∧ msgs.length > st.lastIndex)
  · simp only [pollIter, if_pos hc]
    omega
  · simp only [pollIter, if_neg hc]
    push_neg at hc
    rcases eq_or_ne msgs [] with rfl | hne
    · simp
    · have := hc hne
      omega

/-- Per-iteration monotonicity of the cursor. -/
theorem pollIter_lastIndex_mono (st : PollState) (r : FetchResult) :
    st.lastIndex ≤ ((pollIter st r).2.1).lastIndex := by
  cases r with
  | ok msgs =>
    by_cases hc : (msgs ≠ [] ∧ msgs.length > st.lastIndex)
    · simp only [pollIter, if_pos hc]
      exact le_of_lt hc.2
    · simp [pollIter, hc]
  | notFound => simp [pollIter]
  | serverError s b => simp [pollIter]

/-- Whole-run monotonicity of the cursor. -/
theorem pollLoop_lastIndex_mono (script : List FetchResult) :
    ∀ st : PollState, st.lastIndex ≤ ((pollLoop st script).2.1).lastIndex := by
  induction script with
  | nil => intro st; simp [pollLoop]
  | cons r rest ih =>
    intro st
    cases hstop : st.stopSet with
    | true => simp [pollLoop, hstop]
    | false =>
      cases hterm : (pollIter st r).2.2 with
      | true =>
        simp only [pollLoop, hstop, Bool.false_eq_true, if_false, hterm, if_true]
        exact pollIter_lastIndex_mono st r
      | false =>
        simp only [pollLoop, hstop, Bool.false_eq_true, if_false, hterm]
        exact le_trans (pollIter_lastIndex_mono st r) (ih (pollIter st r).2.1)

/-- C5: the cursor is monotonically non-decreasing: across every single
poll iteration for every fetch outcome, and across every whole run of the
poll loop for every fetch script. -/
theorem C5_cursor_monotone :
    (∀ (st : PollState) (r : FetchResult),
        st.lastIndex ≤ ((pollIter st r).2.1).lastIndex)
    ∧ (∀ (st : PollState) (script : List FetchResult),
        st.lastIndex ≤ ((pollLoop st script).2.1).lastIndex) :=
  ⟨pollIter_lastIndex_mono, fun st script => pollLoop_lastIndex_mono script st⟩

/-- C6: a poll iteration whose fetch fails with an error other than
`NotFound` prints one diagnostic and leaves the state entirely unchanged
(stop event not set, cursor unchanged) without terminating; in the loop
this iteration merely prepends its diagnostic and continues with the next
iteration. -/
theorem C6_transient_error_no_state_change (s : Nat) (b : String) (st : PollState)
    (rest : List FetchResult) :
    pollIter st (FetchResult.serverError s b)
        = ([OutLine.diag (fetchErrLine s b)], st, false)
    ∧ (st.stopSet = false →
        pollLoop st (FetchResult.serverError s b :: rest)
          = (OutLine.diag (fetchErrLine s b) :: (pollLoop st rest).1,
             (pollLoop st rest).2.1, (pollLoop st rest).2.2)) := by
  refine ⟨rfl, fun h => ?_⟩
  simp [pollLoop, pollIter, h]

/-- C6 witness: a 500 fetch failure at cursor 0 prints the diagnostic and
continues into the (empty) remainder with state unchanged. -/
theorem C6_transient_error_no_state_change_witness :
    pollLoop ⟨0, false⟩ [FetchResult.serverError 500 "x"]
      = (OutLine.diag (fetchErrLine 500 "x") :: (pollLoop ⟨0, false⟩ []).1,
         (pollLoop ⟨0, false⟩ []).2.1, (pollLoop ⟨0, false⟩ []).2.2) :=
  (C6_transient_error_no_state_change 500 "x" ⟨0, false⟩ []).2 rfl

/-- C7: a `NotFound` fetch — at initialization or inside the poll loop —
sets the stop event and returns immediately: the whole remaining script
is left unconsumed (no further fetches), and no message line is
printed. -/
theorem C7_notfound_sets_stop_and_returns (script rest : List FetchResult)
    (st : PollState) :
    verificar_mensagens FetchResult.notFound script
        = ([OutLine.diag stopLine], ⟨0, true⟩, script)
    ∧ printedMsgs (verificar_mensagens FetchResult.notFound script).1 = []
    ∧ (st.stopSet = false →
        pollLoop st (FetchResult.notFound :: rest)
          = ([OutLine.diag stopLine], ⟨st.lastIndex, true⟩, rest)) := by
  refine ⟨rfl, by simp [verificar_mensagens, initCursor, printedMsgs, lineMsg], fun h => ?_⟩
  simp [pollLoop, pollIter, h]

/-- C7 witness: `NotFound` at cursor 5 stops the loop, keeps the cursor,
and leaves the subsequent fetch unperformed. -/
theorem C7_notfound_sets_stop_and_returns_witness :
    pollLoop ⟨5, false⟩ [FetchResult.notFound, FetchResult.ok [Msg.obj none none]]
      = ([OutLine.diag stopLine], ⟨5, true⟩, [FetchResult.ok [Msg.obj none none]]) :=
  (C7_notfound_sets_stop_and_returns [] [FetchResult.ok [Msg.obj none none]]
    ⟨5, false⟩).2.2 rfl

/-- C8: `conectar` raises `NotFound` exactly on status 404 and
`ServerError` — carrying the response's status and body — exactly on any
other non-200 status; and a 200 response whose token is empty or absent
makes the handshake loop reprompt (move on to the next attempt) rather
than connect. -/
theorem C8_connect_error_mapping (r : ConnResp) (rest : List ConnResp) :
    (conectar r = Except.error ConnError.notFound ↔ r.status = 404)
    ∧ (∀ (s : Nat) (b : String),
        conectar r = Except.error (ConnError.serverError s b)
          ↔ (r.status ≠ 404 ∧ r.status ≠ 200 ∧ s = r.status ∧ b = r.body))
    ∧ (r.status = 200 → tokenFalsy r.token = true →
        handshakeLoop (r :: rest) = handshakeLoop rest) := by
  by_cases h404 : r.status = 404
  · refine ⟨by simp [conectar, h404], fun s b => by simp [conectar, h404], fun h200 => ?_⟩
    omega
  · by_cases h200 : r.status = 200
    · refine ⟨by simp [conectar, h404, h200], fun s b => by simp [conectar, h404, h200],
        fun _ htok => ?_⟩
      cases htok' : r.token with
      | none => simp [handshakeLoop, handshakeStep, conectar, h404, h200, htok']
      | some s =>
        have hs : s = "" := by simpa [tokenFalsy, htok'] using htok
        simp [handshakeLoop, handshakeStep, conectar, h404, h200, htok', hs]
    · refine ⟨by simp [conectar, h404, h200], fun s b => ?_, fun h200' => absurd h200' h200⟩
      simp [conectar, h404, h200, eq_comm]

/-- C8 witness: a 200 response carrying the empty token makes the
handshake loop reprompt. -/
theorem C8_connect_error_mapping_witness :
    handshakeLoop [ConnResp.mk 200 "" (some "")] = handshakeLoop [] :=
  (C8_connect_error_mapping ⟨200, "", some ""⟩ []).2.2 rfl (by decide)

/-- C9: `enviar_mensagem` succeeds exactly on status 200 or 204 and
otherwise raises with the response's status and body; in the input/send
loop a blank (whitespace-only) line causes no send and no output, a
non-blank line is sent (stripped), and a failed send prints one
diagnostic while the loop continues with the subsequent events. -/
theorem C9_send_loop_behaviour (respond : String → SendResp) (s : String)
    (rest : List InputEvent) (r : SendResp) (stc : Nat) (b : String) :
    (enviar_mensagem r = Except.ok () ↔ (r.status = 200 ∨ r.status = 204))
    ∧ ((r.status ≠ 200 ∧ r.status ≠ 204) →
        enviar_mensagem r = Except.error (r.status, r.body))
    ∧ (strip s = "" →
        loop_entrada_e_envio respond (InputEvent.line s :: rest)
          = loop_entrada_e_envio respond rest)
    ∧ (strip s ≠ "" →
        (loop_entrada_e_envio respond (InputEvent.line s :: rest)).1
          = strip s :: (loop_entrada_e_envio respond rest).1)
    ∧ (strip s ≠ "" → enviar_mensagem (respond (strip s)) = Except.error (stc, b) →
        (loop_entrada_e_envio respond (InputEvent.line s :: rest)).2
          = OutLine.diag (sendErrLine stc b)
              :: (loop_entrada_e_envio respond rest).2) := by
  refine ⟨?_, fun h => ?_, fun h => ?_, fun h => ?_, fun h henv => ?_⟩
  · by_cases hc : (r.status = 200 ∨ r.status = 204) <;> simp [enviar_mensagem, hc]
  · simp [enviar_mensagem, h.1, h.2]
  · simp [loop_entrada_e_envio, h]
  · simp only [loop_entrada_e_envio, if_neg h]
    cases henv : enviar_mensagem (respond (strip s)) with
    | ok u => simp [henv]
    | error e =>
      obtain ⟨st', b'⟩ := e
      simp [henv]
  · simp only [loop_entrada_e_envio, if_neg h, henv]

/-- C9 witness: the non-blank line " hi " against a server answering 500
is stripped, its failure is printed, and the loop continues. -/
theorem C9_send_loop_behaviour_witness :
    (loop_entrada_e_envio (fun _ => SendResp.mk 500 "boom") [InputEvent.line " hi "]).2
      = OutLine.diag (sendErrLine 500 "boom")
          :: (loop_entrada_e_envio (fun _ => SendResp.mk 500 "boom") []).2 :=
  (C9_send_loop_behaviour (fun _ => SendResp.mk 500 "boom") " hi " [] ⟨204, ""⟩
    500 "boom").2.2.2.2 (by decide) rfl

/-- C10: emitting never aborts the poll loop — a successful iteration
never terminates it, the whole unseen suffix is traversed, and every
message object (even with `from` or `text` absent) yields exactly one
line with absent fields rendered as "None". -/
theorem C10_emit_total_on_objects (st : PollState) (msgs : List Msg)
    (f t : Option String) :
    (pollIter st (FetchResult.ok msgs)).2.2 = false
    ∧ (msgs.length > st.lastIndex →
        (pollIter st (FetchResult.ok msgs)).1
          = (msgs.drop st.lastIndex).filterMap emitLine)
    ∧ emitLine (Msg.obj f t) = some (OutLine.msg ("[" ++ optStr f ++ "] " ++ optStr t))
    ∧ optStr none = "None" := by
  refine ⟨?_, fun h => ?_, rfl, rfl⟩
  · by_cases hc : (msgs ≠ [] ∧ msgs.length > st.lastIndex) <;> simp [pollIter, hc]
  · have hne : msgs ≠ [] := by
      intro e
      subst e
      simp at h
    simp [pollIter, hne, h]

/-- C10 witness: from cursor 1, a list whose suffix holds an object with
an absent sender and a non-object item prints exactly the one line of the
object (sender rendered "None") and skips the non-object. -/
theorem C10_emit_total_on_objects_witness :
    (pollIter ⟨1, false⟩ (FetchResult.ok
        [Msg.obj (some "a") (some "x"), Msg.obj none (some "y"), Msg.nonObj])).1
      = ([Msg.obj (some "a") (some "x"), Msg.obj none (some "y"),
          Msg.nonObj].drop 1).filterMap emitLine :=
  (C10_emit_total_on_objects ⟨1, false⟩
    [Msg.obj (some "a") (some "x"), Msg.obj none (some "y"), Msg.nonObj]
    none none).2.1 (by decide)

end TinyChat
